import Mathlib

/-!
Shallow embedding of the event extractor in `scrape_wikipedia_events.py`.

The core under verification is `parse_events_from_month_page` (source lines
94-219): given the parsed content region of one day page, it scans for year
anchors, filters birth/death and recurring entries, runs the dash-seeking
state machine over the anchor's following siblings, normalizes the collected
description and assembles `{name, date}` records.  Network fetching, the
calendar driver and JSON serialization are external collaborators and are
not modelled; per the interface, the extractor receives the parsed document
tree plus the triple (year-ceiling, month, day), the ceiling standing for
`datetime.now().year`.

Strings are modelled as Lean `String` (a list of unicode code points, the
same value model as Python `str`; `len` corresponds to `String.length`).
Character classes `\s` and `\d` are modelled with `Char.isWhitespace` and
`Char.isDigit`, covering the ASCII whitespace/digit ranges the pages use.
-/

namespace Flashback

/-- A parsed HTML node as BeautifulSoup presents it: a `NavigableString`
or a tag with a name, an optional `href` attribute and a list of children.
Equality between nodes is structural, matching bs4's value-based `==`. -/
inductive Node where
  | text (s : String)
  | elem (tag : String) (href : Option String) (children : List Node)

mutual
/-- Structural equality test on nodes (bs4 compares tags and strings by
value: same name, same attributes, same contents). -/
def Node.beq : Node → Node → Bool
  | .text s, .text t => s == t
  | .elem t1 h1 c1, .elem t2 h2 c2 => t1 == t2 && h1 == h2 && beqList c1 c2
  | _, _ => false
/-- Structural equality test on child lists. -/
def beqList : List Node → List Node → Bool
  | [], [] => true
  | a :: as, b :: bs => Node.beq a b && beqList as bs
  | _, _ => false
end

instance : BEq Node := ⟨Node.beq⟩

mutual
/-- The node equality test decides propositional equality. -/
theorem Node.beq_iff : ∀ a b : Node, Node.beq a b = true ↔ a = b
  | .text s, .text t => by simp [Node.beq]
  | .text _, .elem _ _ _ => by simp [Node.beq]
  | .elem _ _ _, .text _ => by simp [Node.beq]
  | .elem t1 h1 c1, .elem t2 h2 c2 => by
      simp [Node.beq, beqList_iff c1 c2, and_assoc]
/-- The child-list equality test decides propositional equality. -/
theorem beqList_iff : ∀ as bs : List Node, beqList as bs = true ↔ as = bs
  | [], [] => by simp [beqList]
  | [], _ :: _ => by simp [beqList]
  | _ :: _, [] => by simp [beqList]
  | a :: as, b :: bs => by
      simp [beqList, Node.beq_iff a b, beqList_iff as bs]
end

instance : DecidableEq Node := fun a b => decidable_of_iff _ (Node.beq_iff a b)

/-- An output record: `{"name": ..., "date": ...}` (source lines 214-217). -/
structure Event where
  name : String
  date : String
deriving DecidableEq, Repr

/-- Python `\s` on the page text: whitespace test for one character. -/
def isWS (c : Char) : Bool := c.isWhitespace

mutual
/-- `element.get_text()`: the concatenation of every string descendant in
document order (a bare string yields itself). -/
def Node.get_text : Node → String
  | .text s => s
  | .elem _ _ cs => getTextList cs
/-- `get_text` over a list of children, concatenated in order. -/
def getTextList : List Node → String
  | [] => ""
  | c :: rest => c.get_text ++ getTextList rest
end

/-- The regex `^/wiki/(\d{3,4})$` applied to an `href` value: the target is
`/wiki/` followed by 3 or 4 digits and nothing else; on success the digit
group is returned.  This is the filter of `find_all` (line 125); the regex
in `extract_year_from_link` (line 83, end-anchored only) agrees with it on
every href that `find_all` lets through, which are the only hrefs it is
applied to. -/
def href_year : List Char → Option (List Char)
  | '/' :: 'w' :: 'i' :: 'k' :: 'i' :: '/' :: rest =>
      if rest.all Char.isDigit && (decide (3 ≤ rest.length) && decide (rest.length ≤ 4))
      then some rest else none
  | _ => none

/-- `extract_year_from_link` (lines 78-86): pull the 3-4 digit year string
out of the anchor's href, if present. -/
def extract_year_from_link : Node → Option String
  | .elem _ (some href) _ => (href_year href.data).map String.mk
  | _ => none

/-- The `find_all('a', href=re.compile(r'^/wiki/\d{3,4}$'))` membership test
(line 125): an `a` tag whose href matches the year pattern. -/
def is_year_anchor : Node → Bool
  | .elem tag (some href) _ => tag == "a" && (href_year href.data).isSome
  | _ => false

/-- `int(year)` on the matched digit string (line 134): decimal value. -/
def natOfDigits (l : List Char) : Nat :=
  l.foldl (fun a c => a * 10 + (c.toNat - 48)) 0

/-- Match of the regex `\(x\.\s*\d{3,4}\)` at the head of the list, for
`x` the given marker letter (`b` or `d`).  The greedy `\s*` and `\d{3,4}`
cannot backtrack usefully (whitespace, digits and `)` are disjoint), so the
regex matches here exactly when the maximal whitespace run after `(x.` is
followed by a maximal digit run of length 3 or 4 and then `)`. -/
def marker_at (letter : Char) : List Char → Bool
  | '(' :: c :: '.' :: rest =>
      c == letter &&
      (let r := rest.dropWhile isWS
       let ds := r.takeWhile Char.isDigit
       (ds.length == 3 || ds.length == 4) && ((r.drop ds.length).head? == some ')'))
  | _ => false

/-- `re.search` of the marker regex: a match at some position of the text. -/
def contains_marker (letter : Char) : List Char → Bool
  | [] => false
  | c :: rest => marker_at letter (c :: rest) || contains_marker letter rest

/-- `is_birth_or_death` (lines 69-75): the scope text matches
`\(b\.\s*\d{3,4}\)` or `\(d\.\s*\d{3,4}\)` (case-sensitive). -/
def is_birth_or_death (text : String) : Bool :=
  contains_marker 'b' text.data || contains_marker 'd' text.data

/-- Substring occurrence over character lists: the needle is a prefix of
some suffix of the haystack. -/
def contains_sub (n : List Char) : List Char → Bool
  | [] => n.isEmpty
  | c :: rest => n.isPrefixOf (c :: rest) || contains_sub n rest

/-- Case-insensitive substring test, modelling `re.search(p, text,
re.IGNORECASE)` for a pattern `p` that is a literal string. -/
def containsCI (needle hay : String) : Bool :=
  contains_sub (needle.data.map Char.toLower) (hay.data.map Char.toLower)

/-- The fixed phrase list of `is_recurring_event` (lines 49-60). -/
def recurring_patterns : List String :=
  ["Independence Day", "National Day", "Public Domain Day", "Solemnity",
   "Holiday", "Observance", "Day of", "Feast of", "Memorial Day",
   "Remembrance Day"]

/-- `is_recurring_event` (lines 46-66): some phrase occurs in the text,
case-insensitively. -/
def is_recurring_event (text : String) : Bool :=
  recurring_patterns.any (fun p => containsCI p text)

/-- The literal of the `(pictured)` annotation, lower case. -/
def pictured_lit : List Char := ['(', 'p', 'i', 'c', 't', 'u', 'r', 'e', 'd', ')']

/-- Length of a match of `\s*\(pictured\)` (case-insensitive) at the head of
the list, if any: a maximal whitespace run followed by the literal. -/
def pictured_match_len (cs : List Char) : Option Nat :=
  let w := cs.takeWhile isWS
  let r := cs.drop w.length
  if pictured_lit.isPrefixOf (r.map Char.toLower)
  then some (w.length + pictured_lit.length) else none

/-- Core of `re.sub(r'\s*\(pictured\)', '', text, flags=re.IGNORECASE)`:
scan left to right; at a match, drop the matched span and resume scanning
right after it (Python `re.sub` replaces non-overlapping matches and never
re-examines text before the resume point); otherwise keep the character. -/
def remove_pictured_go : Nat → List Char → List Char
  | _, [] => []
  | 0, cs => cs
  | fuel + 1, c :: rest =>
    match pictured_match_len (c :: rest) with
    | some n => remove_pictured_go fuel (rest.drop (n - 1))
    | none => c :: remove_pictured_go fuel rest

/-- The scan with its step budget: every step consumes at least one
character, so `cs.length` steps always reach the end of the string (the
out-of-fuel branch is never taken). -/
def remove_pictured_core (cs : List Char) : List Char :=
  remove_pictured_go cs.length cs

/-- `remove_pictured_phrase` (lines 89-91). -/
def remove_pictured_phrase (s : String) : String := ⟨remove_pictured_core s.data⟩

/-- Python `str.strip()` over the character list: drop whitespace from both
ends. -/
def strip_chars (l : List Char) : List Char :=
  ((l.dropWhile isWS).reverse.dropWhile isWS).reverse

/-- `event_text.strip()` (lines 201 and 205). -/
def strip (s : String) : String := ⟨strip_chars s.data⟩

/-- The literal of `rstrip(':–-')` at line 205 — the source bytes are colon,
en-dash (U+2013) and hyphen; the em-dash is NOT in this set. -/
def strip_set : List Char := [':', '–', '-']

/-- `event_text.rstrip(':–-')` (line 205): drop trailing characters drawn
from `strip_set`. -/
def rstrip_seps (s : String) : String :=
  ⟨(s.data.reverse.dropWhile (fun c => strip_set.contains c)).reverse⟩

/-- The dash alternatives `[–—-]` of lines 183 and 186: en-dash (U+2013),
em-dash (U+2014), hyphen. -/
def dash_chars : List Char := ['–', '—', '-']

/-- `re.search(r'^\s*[–—-]\s*', child)` (line 183): the string starts with
optional whitespace followed by a dash (`\s` and the dash class are
disjoint, so the greedy `\s*` cannot backtrack into a match). -/
def starts_with_dash (s : String) : Bool :=
  match (s.data.dropWhile isWS).head? with
  | some c => dash_chars.contains c
  | none => false

/-- `re.sub(r'^\s*[–—-]\s*', '', child)` (line 186): the pattern is anchored,
so at most the initial occurrence is removed — leading whitespace, one dash,
and the whitespace that follows the dash. -/
def strip_dash_lead (s : String) : String :=
  match s.data.dropWhile isWS with
  | c :: rest => if dash_chars.contains c then ⟨rest.dropWhile isWS⟩ else s
  | [] => s

/-- The sibling scan of lines 175-194: the two-state machine.  While the
dash has not been found, only a string child that `starts_with_dash` flips
the state and seeds the text (everything after the dash); other children
are skipped.  Once found, every child contributes its full text (a tag via
`get_text`, a bare string as itself — `Node.get_text` covers both branches
of the Python `if hasattr / elif isinstance`). -/
def collect_after (found_dash : Bool) (event_text : String) : List Node → Bool × String
  | [] => (found_dash, event_text)
  | child :: rest =>
    if found_dash then
      collect_after true (event_text ++ child.get_text) rest
    else
      match child with
      | .text s =>
        if starts_with_dash s then
          collect_after true (event_text ++ strip_dash_lead s) rest
        else collect_after false event_text rest
      | .elem _ _ _ => collect_after false event_text rest

/-- `f"{month:02d}"`: decimal rendering padded to at least two digits. -/
def pad2 (n : Nat) : String := if n < 10 then "0" ++ toString n else toString n

/-- A candidate entry: one year anchor together with the child list of its
parent element (the entry's scope, `list(parent.children)` at line 164). -/
structure Candidate where
  siblings : List Node
  anchor : Node
deriving DecidableEq

mutual
/-- `parser_output.find_all('a', href=...)` with the parent recorded: all
year anchors among the descendants of the node, in document order, each
paired with its parent's child list. -/
def find_year_links : Node → List Candidate
  | .text _ => []
  | .elem _ _ cs => links_in_siblings cs cs
/-- Scan one child list (whose full content is `sibs`): emit a candidate at
each year anchor, then descend into it, then continue with the rest — the
preorder in which `find_all` reports matches. -/
def links_in_siblings (sibs : List Node) : List Node → List Candidate
  | [] => []
  | c :: rest =>
      (if is_year_anchor c then [⟨sibs, c⟩] else [])
        ++ find_year_links c ++ links_in_siblings sibs rest
end

/-- The per-anchor body of the loop at lines 127-217, as one partial map:
`none` wherever the Python code `continue`s, `some record` at line 214.
The steps in order: year extraction (128-130), range validation against the
ceiling (133-140), birth/death filter on the scope text (148), recurring
filter (155), locating the anchor among its siblings by value equality
(bs4 `==`, lines 164-172), the dash-seeking collection (175-198),
normalization (201-205), the length guard (208) and assembly (212-217). -/
def process_year_link (current_year month day : Nat) (c : Candidate) : Option Event :=
  match extract_year_from_link c.anchor with
  | none => none
  | some year =>
    if natOfDigits year.data > current_year ∨ natOfDigits year.data < 1 then none
    else if is_birth_or_death (getTextList c.siblings) then none
    else if is_recurring_event (getTextList c.siblings) then none
    else
      match c.siblings.findIdx? (fun ch => ch == c.anchor) with
      | none => none
      | some idx =>
        match collect_after false "" (c.siblings.drop (idx + 1)) with
        | (false, _) => none
        | (true, raw) =>
          if (strip (rstrip_seps (remove_pictured_phrase (strip raw)))).length < 10 then none
          else some ⟨strip (rstrip_seps (remove_pictured_phrase (strip raw))),
                     year ++ "-" ++ pad2 month ++ "-" ++ pad2 day⟩

/-- `parse_events_from_month_page` from the point where the parsed content
region is in hand (lines 123-219): process every year anchor in document
order, keeping the produced records in that order. -/
def parse_events_from_month_page (parser_output : Node)
    (current_year month day : Nat) : List Event :=
  (find_year_links parser_output).filterMap (process_year_link current_year month day)

/-- A single-entry day page: one list item holding a year anchor followed by
one text node, inside the content region — the shape of the spec's scenario
entries. -/
def entry_scope (year body : String) : List Node :=
  [.elem "a" (some ("/wiki/" ++ year)) [.text year], .text body]

/-- The content region containing exactly one such entry. -/
def entry_doc (year body : String) : Node :=
  .elem "div" none [.elem "li" none (entry_scope year body)]

/-- The claim's birth/death marker shape: `"(x. "` then a 3-4 digit year
then `")"`, occurring somewhere in the text (`x` is the marker letter). -/
def claim_marker (letter : Char) (s : String) : Prop :=
  ∃ (pre ds post : List Char),
    s.data = pre ++ '(' :: letter :: '.' :: ' ' :: (ds ++ ')' :: post) ∧
    (∀ c ∈ ds, c.isDigit = true) ∧ (ds.length = 3 ∨ ds.length = 4)

/-- The date pattern exactly as the claim words it: a four-digit year, a
hyphen, two digits, a hyphen, two digits, with the year's value between 1
and the current calendar year. -/
def claimed_date_format (cy : Nat) (s : String) : Bool :=
  match s.data with
  | [y1, y2, y3, y4, '-', m1, m2, '-', d1, d2] =>
      [y1, y2, y3, y4, m1, m2, d1, d2].all Char.isDigit &&
      (decide (1 ≤ natOfDigits [y1, y2, y3, y4]) &&
       decide (natOfDigits [y1, y2, y3, y4] ≤ cy))
  | _ => false

/-! ## Helper lemmas -/

theorem data_append (a b : String) : (a ++ b).data = a.data ++ b.data := rfl

theorem head?_dropWhile_false {p : Char → Bool} {l : List Char} {c : Char}
    (h : (l.dropWhile p).head? = some c) : p c = false := by
  have hx := List.head?_dropWhile_not p l
  rw [h] at hx
  exact hx

theorem getLast?_dropWhile_of_ne_nil {p : Char → Bool} (l : List Char)
    (h : l.dropWhile p ≠ []) : (l.dropWhile p).getLast? = l.getLast? := by
  induction l with
  | nil => exact absurd rfl h
  | cons a t ih =>
    by_cases hp : p a
    · rw [List.dropWhile_cons_of_pos hp] at h ⊢
      have ht : t ≠ [] := by
        intro he
        subst he
        simp [List.dropWhile] at h
      rw [ih h]
      cases t with
      | nil => exact absurd rfl ht
      | cons b u => simp
    · rw [List.dropWhile_cons_of_neg hp]

/-- A string returned by `strip` does not start with whitespace. -/
theorem strip_head_not_ws {s : String} {c : Char}
    (h : (strip s).data.head? = some c) : isWS c = false := by
  have hz : (strip s).data
      = ((s.data.dropWhile isWS).reverse.dropWhile isWS).reverse := rfl
  rw [hz, List.head?_reverse] at h
  have hne : (s.data.dropWhile isWS).reverse.dropWhile isWS ≠ [] := by
    intro he
    rw [he] at h
    simp at h
  rw [getLast?_dropWhile_of_ne_nil _ hne, List.getLast?_reverse] at h
  exact head?_dropWhile_false h

/-- A string returned by `strip` does not end with whitespace. -/
theorem strip_last_not_ws {s : String} {c : Char}
    (h : (strip s).data.getLast? = some c) : isWS c = false := by
  have hz : (strip s).data
      = ((s.data.dropWhile isWS).reverse.dropWhile isWS).reverse := rfl
  rw [hz, List.getLast?_reverse] at h
  exact head?_dropWhile_false h

/-- A string returned by `rstrip_seps` does not end with a character of the
stripped set. -/
theorem rstrip_last_not_sep {s : String} {c : Char}
    (h : (rstrip_seps s).data.getLast? = some c) : strip_set.contains c = false := by
  have hz : (rstrip_seps s).data
      = (s.data.reverse.dropWhile (fun x => strip_set.contains x)).reverse := rfl
  rw [hz, List.getLast?_reverse] at h
  exact head?_dropWhile_false h

/-- What a successful `href_year` match guarantees about the digit group. -/
theorem href_year_props {l : List Char} {rest : List Char}
    (h : href_year l = some rest) :
    (∀ c ∈ rest, c.isDigit = true) ∧ (rest.length = 3 ∨ rest.length = 4) := by
  unfold href_year at h
  split at h
  · rename_i r
    split at h
    · rename_i hcond
      simp only [Bool.and_eq_true, List.all_eq_true, decide_eq_true_eq] at hcond
      cases h
      exact ⟨hcond.1, by omega⟩
    · exact absurd h (by simp)
  · exact absurd h (by simp)

/-- What a successful year extraction guarantees: the year string is 3 or 4
digit characters. -/
theorem extract_year_props {n : Node} {y : String}
    (h : extract_year_from_link n = some y) :
    (∀ c ∈ y.data, c.isDigit = true) ∧ (y.data.length = 3 ∨ y.data.length = 4) := by
  unfold extract_year_from_link at h
  split at h
  · rename_i tag href cs
    cases hy : href_year href.data with
    | none => rw [hy] at h; exact absurd h (by simp)
    | some rest =>
      rw [hy] at h
      simp only [Option.map_some'] at h
      cases h
      exact href_year_props hy
  · exact absurd h (by simp)

/-- Inversion of the per-anchor map: any produced record carries a validated
3-4 digit year, a name that went through the full normalization chain with
the length guard, and the assembled date string. -/
theorem process_some {cy m d : Nat} {c : Candidate} {e : Event}
    (h : process_year_link cy m d c = some e) :
    ∃ (year : String) (raw : String),
      extract_year_from_link c.anchor = some year ∧
      1 ≤ natOfDigits year.data ∧ natOfDigits year.data ≤ cy ∧
      e.name = strip (rstrip_seps (remove_pictured_phrase (strip raw))) ∧
      10 ≤ e.name.length ∧
      e.date = year ++ "-" ++ pad2 m ++ "-" ++ pad2 d := by
  unfold process_year_link at h
  split at h
  · exact absurd h (by simp)
  rename_i year hx
  split at h
  · exact absurd h (by simp)
  rename_i hrange
  split at h
  · exact absurd h (by simp)
  split at h
  · exact absurd h (by simp)
  split at h
  · exact absurd h (by simp)
  rename_i idx hidx
  split at h
  · exact absurd h (by simp)
  rename_i raw hcoll
  split at h
  · exact absurd h (by simp)
  rename_i hlen
  rw [Option.some.injEq] at h
  subst h
  refine ⟨year, raw, hx, by omega, by omega, rfl, by simpa using Nat.le_of_not_lt hlen, rfl⟩

/-- Membership in the page output comes from some candidate entry. -/
theorem mem_parse_events {root : Node} {cy m d : Nat} {e : Event}
    (h : e ∈ parse_events_from_month_page root cy m d) :
    ∃ c, c ∈ find_year_links root ∧ process_year_link cy m d c = some e := by
  simpa [parse_events_from_month_page, List.mem_filterMap] using h

/-! ## Claims -/

/-- C7: an entry whose scope is the year anchor 1969 followed by the text
" – Apollo 11 (pictured) landed on the Moon.", extracted for month 7 and
day 20 (under any year ceiling admitting 1969, as the current calendar year
does), yields exactly the record with name "Apollo 11 landed on the Moon."
and date "1969-07-20". -/
theorem C7_apollo_scenario (cy : Nat) (h : 1969 ≤ cy) :
    parse_events_from_month_page
        (entry_doc "1969" " – Apollo 11 (pictured) landed on the Moon.") cy 7 20
      = [⟨"Apollo 11 landed on the Moon.", "1969-07-20"⟩] := by
  have hp : process_year_link cy 7 20
      ⟨entry_scope "1969" " – Apollo 11 (pictured) landed on the Moon.",
       .elem "a" (some "/wiki/1969") [.text "1969"]⟩
      = if natOfDigits "1969".data > cy ∨ natOfDigits "1969".data < 1 then none
        else some ⟨"Apollo 11 landed on the Moon.", "1969-07-20"⟩ := rfl
  have hv : natOfDigits "1969".data = 1969 := rfl
  rw [hv, if_neg (by omega)] at hp
  have hf : find_year_links
      (entry_doc "1969" " – Apollo 11 (pictured) landed on the Moon.")
      = [⟨entry_scope "1969" " – Apollo 11 (pictured) landed on the Moon.",
          .elem "a" (some "/wiki/1969") [.text "1969"]⟩] := rfl
  unfold parse_events_from_month_page
  rw [hf, List.filterMap_cons_some hp, List.filterMap_nil]

/-- C7 witness: the scenario record at the concrete current-year ceiling. -/
theorem C7_apollo_scenario_witness :
    parse_events_from_month_page
        (entry_doc "1969" " – Apollo 11 (pictured) landed on the Moon.") 2026 7 20
      = [⟨"Apollo 11 landed on the Moon.", "1969-07-20"⟩] :=
  C7_apollo_scenario 2026 (by omega)

/-- C9: extraction is deterministic: the extractor is a pure function of the
parsed document and the (year-ceiling, month, day) triple, so two runs on
the same input yield identical record sequences in the same order. -/
theorem C9_deterministic (root : Node) (cy m d : Nat) :
    parse_events_from_month_page root cy m d
      = parse_events_from_month_page root cy m d := rfl

theorem digit_not_ws {c : Char} (h : c.isDigit = true) : isWS c = false := by
  by_contra hw
  rw [Bool.not_eq_false, isWS, Char.isWhitespace] at hw
  simp only [Bool.or_eq_true, decide_eq_true_eq] at hw
  rcases hw with ((rfl | rfl) | rfl) | rfl <;> exact absurd h (by decide)

theorem dropWhile_ws_digits {ds rest : List Char}
    (hds : ∀ c ∈ ds, c.isDigit = true) :
    (ds ++ rest).dropWhile isWS = ds ++ rest ∨ ds = [] := by
  cases ds with
  | nil => exact Or.inr rfl
  | cons a t =>
    left
    have : isWS a = false := digit_not_ws (hds a (List.mem_cons_self a t))
    simp [List.dropWhile_cons, this]

theorem takeWhile_digit_run {ds : List Char} (hds : ∀ c ∈ ds, c.isDigit = true)
    (post : List Char) :
    (ds ++ ')' :: post).takeWhile Char.isDigit = ds := by
  induction ds with
  | nil => simp [List.takeWhile_cons]
  | cons a t ih =>
    have ha : a.isDigit = true := hds a (List.mem_cons_self a t)
    simp only [List.cons_append, List.takeWhile_cons, ha, if_true]
    rw [ih (fun c hc => hds c (List.mem_cons_of_mem a hc))]

/-- The marker regex matches at a position of the claimed shape. -/
theorem marker_at_of_shape (letter : Char) (ds post : List Char)
    (hds : ∀ c ∈ ds, c.isDigit = true) (hlen : ds.length = 3 ∨ ds.length = 4) :
    marker_at letter ('(' :: letter :: '.' :: ' ' :: (ds ++ ')' :: post)) = true := by
  unfold marker_at
  simp only [beq_self_eq_true, Bool.true_and]
  have hws : isWS ' ' = true := rfl
  rw [List.dropWhile_cons_of_pos hws]
  have hr : (ds ++ ')' :: post).dropWhile isWS = ds ++ ')' :: post := by
    rcases dropWhile_ws_digits hds with h | h
    · exact h
    · subst h
      have : isWS ')' = false := rfl
      simp [List.dropWhile_cons, this]
  rw [hr, takeWhile_digit_run hds post, List.drop_left]
  rcases hlen with h | h <;> simp [h]

/-- A match somewhere inside the text makes the whole search succeed. -/
theorem contains_marker_append (letter : Char) (pre rest : List Char)
    (h : marker_at letter rest = true) :
    contains_marker letter (pre ++ rest) = true := by
  induction pre with
  | nil =>
    cases rest with
    | nil => exact absurd h (by simp [marker_at])
    | cons c t => simp only [List.nil_append]; unfold contains_marker; simp [h]
  | cons a t ih =>
    simp only [List.cons_append]
    unfold contains_marker
    simp [ih]

/-- C4: a candidate entry whose scope text contains a parenthesized birth
marker "(b. " + 3-4 digit year + ")" or death marker "(d. " + year + ")"
(case-sensitive letters) is discarded: the per-anchor map produces no
record from it. -/
theorem C4_birth_death_filter (cy m d : Nat) (c : Candidate)
    (h : claim_marker 'b' (getTextList c.siblings)
       ∨ claim_marker 'd' (getTextList c.siblings)) :
    process_year_link cy m d c = none := by
  have hbd : is_birth_or_death (getTextList c.siblings) = true := by
    unfold is_birth_or_death
    rw [Bool.or_eq_true]
    rcases h with ⟨pre, ds, post, heq, hds, hlen⟩ | ⟨pre, ds, post, heq, hds, hlen⟩
    · left
      rw [heq]
      exact contains_marker_append _ _ _ (marker_at_of_shape _ _ _ hds hlen)
    · right
      rw [heq]
      exact contains_marker_append _ _ _ (marker_at_of_shape _ _ _ hds hlen)
  unfold process_year_link
  split
  · rfl
  split
  · rfl
  simp [hbd]

/-- C4 witness: the spec's own example entry "1980 (b. 1925) Jane Doe,
born on this day." yields no record. -/
theorem C4_birth_death_filter_witness :
    process_year_link 2026 7 20
      ⟨entry_scope "1980" " (b. 1925) Jane Doe, born on this day.",
       .elem "a" (some "/wiki/1980") [.text "1980"]⟩ = none :=
  C4_birth_death_filter 2026 7 20 _
    (Or.inl ⟨"1980 ".data, "1925".data, " Jane Doe, born on this day.".data,
      rfl, by decide, by decide⟩)

/-- C5: a candidate entry whose scope text contains any of the fixed
recurring-event phrases (case-insensitively) is discarded — the per-anchor
map produces no record from it, whatever else the entry contains. -/
theorem C5_recurring_filter (cy m d : Nat) (c : Candidate) (p : String)
    (hp : p ∈ recurring_patterns)
    (h : containsCI p (getTextList c.siblings) = true) :
    process_year_link cy m d c = none := by
  have hre : is_recurring_event (getTextList c.siblings) = true := by
    unfold is_recurring_event
    rw [List.any_eq_true]
    exact ⟨p, hp, h⟩
  unfold process_year_link
  split
  · rfl
  split
  · rfl
  split
  · rfl
  simp [hre]

/-- C5 witness: the spec's own example "1776 – Independence Day
celebrations began." yields no record despite its valid year/dash shape. -/
theorem C5_recurring_filter_witness :
    process_year_link 2026 7 20
      ⟨entry_scope "1776" " – Independence Day celebrations began.",
       .elem "a" (some "/wiki/1776") [.text "1776"]⟩ = none :=
  C5_recurring_filter 2026 7 20 _ "Independence Day" (by decide) (by decide)

/-- If no text node in the scanned sibling list starts (after leading
whitespace) with a dash, the state machine never leaves the seeking state. -/
theorem collect_no_dash (l : List Node) (acc : String)
    (h : ∀ s : String, Node.text s ∈ l → starts_with_dash s = false) :
    collect_after false acc l = (false, acc) := by
  induction l generalizing acc with
  | nil => rfl
  | cons child rest ih =>
    unfold collect_after
    simp only [Bool.false_eq_true, if_false]
    cases child with
    | text s =>
      have hs : starts_with_dash s = false := h s (List.mem_cons_self _ _)
      simp only [hs, Bool.false_eq_true, if_false]
      exact ih _ (fun s2 hs2 => h s2 (List.mem_cons_of_mem _ hs2))
    | elem tag hr cs =>
      exact ih _ (fun s2 hs2 => h s2 (List.mem_cons_of_mem _ hs2))

/-- C6: a candidate entry whose sibling sequence after the year anchor
contains no plain text node beginning (after leading whitespace) with an
en-dash, em-dash or hyphen is discarded entirely: no record is produced. -/
theorem C6_no_separator_discarded (cy m d : Nat) (c : Candidate) (idx : Nat)
    (hidx : c.siblings.findIdx? (fun ch => ch == c.anchor) = some idx)
    (h : ∀ s : String, Node.text s ∈ c.siblings.drop (idx + 1) →
        starts_with_dash s = false) :
    process_year_link cy m d c = none := by
  unfold process_year_link
  split
  · rfl
  split
  · rfl
  split
  · rfl
  split
  · rfl
  split
  · rfl
  rename_i idx2 hidx2
  rw [hidx] at hidx2
  rw [Option.some.injEq] at hidx2
  subst hidx2
  split
  · rfl
  rename_i raw hcoll
  rw [collect_no_dash _ _ h] at hcoll
  simp at hcoll

/-- C6 witness: the spec's boundary entry "1923 (no dash here) rest of
text" yields no record. -/
theorem C6_no_separator_discarded_witness :
    process_year_link 2026 7 20
      ⟨entry_scope "1923" " (no dash here) rest of text",
       .elem "a" (some "/wiki/1923") [.text "1923"]⟩ = none :=
  C6_no_separator_discarded 2026 7 20 _ 0 (by decide)
    (by
      intro s hs
      simp only [entry_scope, List.drop_succ_cons, List.drop_zero] at hs
      rw [List.mem_singleton] at hs
      cases hs
      decide)

theorem pad2_two_digits (n : Nat) (h1 : 1 ≤ n) (h2 : n ≤ 31) :
    (pad2 n).data.length = 2 ∧ ∀ c ∈ (pad2 n).data, c.isDigit = true := by
  interval_cases n <;> exact ⟨by decide, by decide⟩

/-- C1 counterexample: the href `/wiki/903` passes the 3-4 digit filter, so
the produced record's date is "903-07-20", which does not match the claimed
four-digit-year pattern. -/
theorem C1_counterexample :
    parse_events_from_month_page
        (entry_doc "903" " – Some long battle description here.") 2026 7 20
      = [⟨"Some long battle description here.", "903-07-20"⟩] ∧
    claimed_date_format 2026 "903-07-20" = false :=
  ⟨rfl, rfl⟩

/-- C1 (amended): for month in [1,12] and day in [1,31], every produced
record's date is a THREE-OR-FOUR digit year, a hyphen, the two-digit
zero-padded month, a hyphen, the two-digit zero-padded day, with the year's
value between 1 and the year ceiling. -/
theorem C1_date_format (root : Node) (cy m d : Nat)
    (hm1 : 1 ≤ m) (hm2 : m ≤ 12) (hd1 : 1 ≤ d) (hd2 : d ≤ 31)
    {e : Event} (he : e ∈ parse_events_from_month_page root cy m d) :
    ∃ ys : List Char,
      e.date.data = ys ++ '-' :: ((pad2 m).data ++ '-' :: (pad2 d).data) ∧
      (∀ c ∈ ys, c.isDigit = true) ∧ (ys.length = 3 ∨ ys.length = 4) ∧
      1 ≤ natOfDigits ys ∧ natOfDigits ys ≤ cy ∧
      (pad2 m).data.length = 2 ∧ (∀ c ∈ (pad2 m).data, c.isDigit = true) ∧
      (pad2 d).data.length = 2 ∧ (∀ c ∈ (pad2 d).data, c.isDigit = true) := by
  obtain ⟨cand, _, hp⟩ := mem_parse_events he
  obtain ⟨year, raw, hx, hy1, hy2, hname, hlen, hdate⟩ := process_some hp
  obtain ⟨hdig, hylen⟩ := extract_year_props hx
  obtain ⟨hm2d, hmdig⟩ := pad2_two_digits m hm1 (by omega)
  obtain ⟨hd2d, hddig⟩ := pad2_two_digits d hd1 hd2
  refine ⟨year.data, ?_, hdig, hylen, hy1, hy2, hm2d, hmdig, hd2d, hddig⟩
  rw [hdate]
  have hdash : ("-" : String).data = ['-'] := rfl
  simp [data_append, hdash, List.append_assoc]

/-- C1 witness: the amended date format at a concrete extraction. -/
theorem C1_date_format_witness :
    ∃ ys : List Char,
      (Event.mk "The Allied forces landed in Normandy." "1944-06-06").date.data
        = ys ++ '-' :: ((pad2 6).data ++ '-' :: (pad2 6).data) ∧
      (∀ c ∈ ys, c.isDigit = true) ∧ (ys.length = 3 ∨ ys.length = 4) ∧
      1 ≤ natOfDigits ys ∧ natOfDigits ys ≤ 2026 ∧
      (pad2 6).data.length = 2 ∧ (∀ c ∈ (pad2 6).data, c.isDigit = true) ∧
      (pad2 6).data.length = 2 ∧ (∀ c ∈ (pad2 6).data, c.isDigit = true) :=
  C1_date_format (entry_doc "1944" " — The Allied forces landed in Normandy.")
    2026 6 6 (by omega) (by omega) (by omega) (by omega) (by decide)

/-- C2 counterexample: two produced records whose names end in a separator.
With scope text "1969 – A famous battle was fought : :" the single
rstrip-then-strip round removes only the last colon and the whitespace, so
the name ends with ":"; with "1969 – A famous battle was fought —" the
trailing em-dash survives because the rstrip set (source bytes `':–-'`)
holds only colon, en-dash and hyphen. -/
theorem C2_counterexample :
    (parse_events_from_month_page
         (entry_doc "1969" " – A famous battle was fought : :") 2026 7 20
       = [⟨"A famous battle was fought :", "1969-07-20"⟩] ∧
     ("A famous battle was fought :" : String).data.getLast? = some ':') ∧
    (parse_events_from_month_page
         (entry_doc "1969" " – A famous battle was fought —") 2026 7 20
       = [⟨"A famous battle was fought —", "1969-07-20"⟩] ∧
     ("A famous battle was fought —" : String).data.getLast? = some '—') :=
  ⟨⟨rfl, rfl⟩, ⟨rfl, rfl⟩⟩

/-- C2 (amended): every produced record's name ends in a non-whitespace
character, and the rstrip step leaves no trailing colon, en-dash or hyphen
at the moment it runs; the em-dash is not in the stripped set, and a
separator that precedes removed trailing whitespace-plus-separators can
survive as the final character, because only one stripping round is
applied. -/
theorem C2_trailing_separator (root : Node) (cy m d : Nat) {e : Event}
    (he : e ∈ parse_events_from_month_page root cy m d) :
    (∀ c, e.name.data.getLast? = some c → c.isWhitespace = false) ∧
    (∀ (s : String) (c2 : Char), (rstrip_seps s).data.getLast? = some c2 →
      strip_set.contains c2 = false) := by
  constructor
  · intro c hc
    obtain ⟨cand, _, hp⟩ := mem_parse_events he
    obtain ⟨year, raw, _, _, _, hname, _, _⟩ := process_some hp
    rw [hname] at hc
    exact strip_last_not_ws hc
  · intro s c2 hc2
    exact rstrip_last_not_sep hc2

/-- C2 witness: the amended trailing-character facts at a concrete record. -/
theorem C2_trailing_separator_witness :
    (∀ c, (Event.mk "Apollo 11 landed on the Moon." "1969-07-20").name.data.getLast?
        = some c → c.isWhitespace = false) ∧
    (∀ (s : String) (c2 : Char), (rstrip_seps s).data.getLast? = some c2 →
      strip_set.contains c2 = false) :=
  C2_trailing_separator
    (entry_doc "1969" " – Apollo 11 (pictured) landed on the Moon.")
    2026 7 20 (by decide)

/-- C3 counterexample: removal of "(pictured)" is a single left-to-right
pass of `re.sub`, which never rescans; deleting the inner occurrence in
"(pic(pictured)tured)" concatenates the surrounding text into a fresh
"(pictured)", so the produced name contains the annotation. -/
theorem C3_counterexample :
    parse_events_from_month_page
        (entry_doc "1969" " – (pic(pictured)tured) some long text.") 2026 7 20
      = [⟨"(pictured) some long text.", "1969-07-20"⟩] ∧
    containsCI "(pictured)" "(pictured) some long text." = true :=
  ⟨rfl, rfl⟩

/-- C3 (amended): every produced record's name has length at least 10 and
neither starts nor ends with whitespace, and is the image of the collected
description under the normalization chain — whose "(pictured)" removal is a
single pass, so an occurrence re-formed by the deletion (as in
"(pic(pictured)tured)") can remain in the name. -/
theorem C3_name_normalized (root : Node) (cy m d : Nat) {e : Event}
    (he : e ∈ parse_events_from_month_page root cy m d) :
    10 ≤ e.name.length ∧
    (∀ c, e.name.data.head? = some c → c.isWhitespace = false) ∧
    (∀ c, e.name.data.getLast? = some c → c.isWhitespace = false) ∧
    ∃ raw : String,
      e.name = strip (rstrip_seps (remove_pictured_phrase (strip raw))) := by
  obtain ⟨cand, _, hp⟩ := mem_parse_events he
  obtain ⟨year, raw, _, _, _, hname, hlen, _⟩ := process_some hp
  refine ⟨hlen, ?_, ?_, raw, hname⟩
  · intro c hc
    rw [hname] at hc
    exact strip_head_not_ws hc
  · intro c hc
    rw [hname] at hc
    exact strip_last_not_ws hc

/-- C3 witness: the amended name facts at a concrete record. -/
theorem C3_name_normalized_witness :
    10 ≤ (Event.mk "Apollo 11 landed on the Moon." "1969-07-20").name.length ∧
    (∀ c, (Event.mk "Apollo 11 landed on the Moon." "1969-07-20").name.data.head?
        = some c → c.isWhitespace = false) ∧
    (∀ c, (Event.mk "Apollo 11 landed on the Moon." "1969-07-20").name.data.getLast?
        = some c → c.isWhitespace = false) ∧
    ∃ raw : String,
      (Event.mk "Apollo 11 landed on the Moon." "1969-07-20").name
        = strip (rstrip_seps (remove_pictured_phrase (strip raw))) :=
  C3_name_normalized
    (entry_doc "1969" " – Apollo 11 (pictured) landed on the Moon.")
    2026 7 20 (by decide)

/-- C10 counterexample: the zero-padded href `/wiki/007` passes the 3-4
digit filter and the range validation (`int("007") = 7 ≥ 1`), so a record
whose numeric year is 7 — inside [1,99] — is produced. -/
theorem C10_counterexample :
    parse_events_from_month_page
        (entry_doc "007" " – Some historic event happened here.") 2026 7 20
      = [⟨"Some historic event happened here.", "007-07-20"⟩] ∧
    ("007-07-20" : String).data
      = ['0', '0', '7'] ++ '-' :: ((pad2 7).data ++ '-' :: (pad2 20).data) ∧
    natOfDigits ['0', '0', '7'] = 7 :=
  ⟨rfl, rfl, rfl⟩

/-- C10 (amended): every produced record's year component consists of 3 or
4 digit characters (the href filter requires that many), so no 1- or
2-character year string ever appears; however, zero-padded hrefs such as
`/wiki/007` still yield records whose numeric year lies in [1,99]. -/
theorem C10_year_digits (root : Node) (cy m d : Nat) {e : Event}
    (he : e ∈ parse_events_from_month_page root cy m d) :
    ∃ ys : List Char,
      e.date.data = ys ++ '-' :: ((pad2 m).data ++ '-' :: (pad2 d).data) ∧
      (∀ c ∈ ys, c.isDigit = true) ∧ 3 ≤ ys.length ∧ ys.length ≤ 4 := by
  obtain ⟨cand, _, hp⟩ := mem_parse_events he
  obtain ⟨year, raw, hx, _, _, _, _, hdate⟩ := process_some hp
  obtain ⟨hdig, hylen⟩ := extract_year_props hx
  refine ⟨year.data, ?_, hdig, by omega, by omega⟩
  rw [hdate]
  have hdash : ("-" : String).data = ['-'] := rfl
  simp [data_append, hdash, List.append_assoc]

/-- C10 witness: the year-digit facts at a concrete record. -/
theorem C10_year_digits_witness :
    ∃ ys : List Char,
      (Event.mk "Some long battle description here." "903-07-20").date.data
        = ys ++ '-' :: ((pad2 7).data ++ '-' :: (pad2 20).data) ∧
      (∀ c ∈ ys, c.isDigit = true) ∧ 3 ≤ ys.length ∧ ys.length ≤ 4 :=
  C10_year_digits (entry_doc "903" " – Some long battle description here.")
    2026 7 20 (by decide)

theorem dropWhile_ws_append {w : List Char} (hw : ∀ c ∈ w, isWS c = true)
    (l : List Char) : (w ++ l).dropWhile isWS = l.dropWhile isWS := by
  induction w with
  | nil => rfl
  | cons a t ih =>
    have ha : isWS a = true := hw a (List.mem_cons_self _ _)
    rw [List.cons_append, List.dropWhile_cons_of_pos ha]
    exact ih (fun c hc => hw c (List.mem_cons_of_mem _ hc))

/-- C8: a candidate entry whose scope is the year anchor followed by one
text node of the form whitespace-dash-whitespace-description, passing the
validation and the two filters, yields exactly the record whose name is
the description (here already in normalized form) — and the result is the
same whichever of the three dash variants separates year and description. -/
theorem C8_dash_invariance (cy m d : Nat) (y desc : String) (w1 w2 : List Char)
    (hy : href_year ("/wiki/" ++ y).data = some y.data)
    (hy1 : 1 ≤ natOfDigits y.data) (hy2 : natOfDigits y.data ≤ cy)
    (hw1 : ∀ c ∈ w1, isWS c = true) (hw2 : ∀ c ∈ w2, isWS c = true)
    (hdl : desc.data.dropWhile isWS = desc.data)
    (hbd : ∀ dash ∈ dash_chars,
      is_birth_or_death (getTextList
        (entry_scope y (String.mk (w1 ++ dash :: (w2 ++ desc.data))))) = false)
    (hre : ∀ dash ∈ dash_chars,
      is_recurring_event (getTextList
        (entry_scope y (String.mk (w1 ++ dash :: (w2 ++ desc.data))))) = false)
    (hstrip : strip desc = desc) (hpic : remove_pictured_phrase desc = desc)
    (hsep : rstrip_seps desc = desc) (hlen : 10 ≤ desc.length) :
    ∀ dash ∈ dash_chars,
      process_year_link cy m d
        ⟨entry_scope y (String.mk (w1 ++ dash :: (w2 ++ desc.data))),
         .elem "a" (some ("/wiki/" ++ y)) [.text y]⟩
        = some ⟨desc, y ++ "-" ++ pad2 m ++ "-" ++ pad2 d⟩ := by
  intro dash hdash
  have hbd2 := hbd dash hdash
  have hre2 := hre dash hdash
  have hwsd : isWS dash = false := by
    simp only [dash_chars, List.mem_cons, List.not_mem_nil, or_false] at hdash
    rcases hdash with rfl | rfl | rfl <;> rfl
  have hcont : dash_chars.contains dash = true := by
    simp only [dash_chars, List.mem_cons, List.not_mem_nil, or_false] at hdash
    rcases hdash with rfl | rfl | rfl <;> rfl
  have hx : extract_year_from_link (Node.elem "a" (some ("/wiki/" ++ y)) [Node.text y])
      = some y := by
    show (href_year ("/wiki/" ++ y).data).map String.mk = some y
    rw [hy]
    rfl
  have hdw : (String.mk (w1 ++ dash :: (w2 ++ desc.data))).data.dropWhile isWS
      = dash :: (w2 ++ desc.data) := by
    show (w1 ++ dash :: (w2 ++ desc.data)).dropWhile isWS = _
    rw [dropWhile_ws_append hw1]
    exact List.dropWhile_cons_of_neg (by rw [hwsd]; exact Bool.false_ne_true)
  have hsd : starts_with_dash (String.mk (w1 ++ dash :: (w2 ++ desc.data))) = true := by
    unfold starts_with_dash
    rw [hdw]
    simpa using hcont
  have hlead : strip_dash_lead (String.mk (w1 ++ dash :: (w2 ++ desc.data))) = desc := by
    unfold strip_dash_lead
    rw [hdw]
    simp only [hcont, if_true]
    rw [dropWhile_ws_append hw2, hdl]
  have hcoll : collect_after false ""
      [Node.text (String.mk (w1 ++ dash :: (w2 ++ desc.data)))] = (true, desc) := by
    unfold collect_after
    simp only [Bool.false_eq_true, if_false, hsd, if_true, hlead]
    rfl
  have hfind : List.findIdx?
      (fun ch => ch == Node.elem "a" (some ("/wiki/" ++ y)) [Node.text y])
      (entry_scope y (String.mk (w1 ++ dash :: (w2 ++ desc.data)))) = some 0 := by
    have hself : (Node.elem "a" (some ("/wiki/" ++ y)) [Node.text y]
        == Node.elem "a" (some ("/wiki/" ++ y)) [Node.text y]) = true :=
      (Node.beq_iff _ _).mpr rfl
    show List.findIdx? _ (Node.elem "a" (some ("/wiki/" ++ y)) [Node.text y]
      :: [Node.text (String.mk (w1 ++ dash :: (w2 ++ desc.data)))]) = some 0
    rw [List.findIdx?_cons]
    simp [hself]
  unfold process_year_link
  dsimp only
  rw [hx]
  dsimp only
  rw [if_neg (by omega), hbd2, hre2]
  simp only [Bool.false_eq_true, if_false]
  rw [hfind]
  dsimp only
  have hdrop : (entry_scope y (String.mk (w1 ++ dash :: (w2 ++ desc.data)))).drop (0 + 1)
      = [Node.text (String.mk (w1 ++ dash :: (w2 ++ desc.data)))] := rfl
  rw [hdrop, hcoll]
  dsimp only
  rw [hstrip, hpic, hsep, hstrip]
  rw [if_neg (by omega)]

/-- C8 witness: the dash-invariance at a concrete entry, instantiated at
each of the three separators. -/
theorem C8_dash_invariance_witness :
    (process_year_link 2026 6 6
        ⟨entry_scope "1944"
           (String.mk ([' '] ++ '–' :: ([' '] ++ "The Allied forces landed in Normandy.".data))),
         .elem "a" (some ("/wiki/" ++ "1944")) [.text "1944"]⟩
        = some ⟨"The Allied forces landed in Normandy.",
                "1944" ++ "-" ++ pad2 6 ++ "-" ++ pad2 6⟩) ∧
    (process_year_link 2026 6 6
        ⟨entry_scope "1944"
           (String.mk ([' '] ++ '—' :: ([' '] ++ "The Allied forces landed in Normandy.".data))),
         .elem "a" (some ("/wiki/" ++ "1944")) [.text "1944"]⟩
        = some ⟨"The Allied forces landed in Normandy.",
                "1944" ++ "-" ++ pad2 6 ++ "-" ++ pad2 6⟩) ∧
    (process_year_link 2026 6 6
        ⟨entry_scope "1944"
           (String.mk ([' '] ++ '-' :: ([' '] ++ "The Allied forces landed in Normandy.".data))),
         .elem "a" (some ("/wiki/" ++ "1944")) [.text "1944"]⟩
        = some ⟨"The Allied forces landed in Normandy.",
                "1944" ++ "-" ++ pad2 6 ++ "-" ++ pad2 6⟩) :=
  have h := C8_dash_invariance 2026 6 6 "1944" "The Allied forces landed in Normandy."
    [' '] [' '] (by decide) (by decide) (by decide) (by decide) (by decide)
    (by decide) (by decide) (by decide) (by decide) (by decide) (by decide)
    (by decide)
  ⟨h '–' (by decide), h '—' (by decide), h '-' (by decide)⟩

end Flashback
